import Mathlib

/-!
Verification of the steam-metadata-archive crawler.

This file gives a shallow embedding of the core logic of the repository's
three Python sources:

* `steam_sync.py`   — the incremental crawl engine (`parse_store_api`,
  `build_header_candidates`, `detect_protection`, the backoff table and the
  main loop), embedded in namespace `SteamSync`;
* `steam_test.py`   — the ad-hoc test tool (`parse_store_api`,
  `build_header_candidates`, `detect_protection_final`,
  `load_existing_data`), embedded in namespace `SteamTest`;
* shared plumbing (`load_json`, the progress cursor).

Modelling boundaries (each noted again at the definition it concerns):

* strings are Lean `String`s; all scanning is done over `String.data`
  (a `List Char`) with structural recursion so every definition evaluates
  by `decide`/`rfl`;
* Python truthiness of a string is `≠ ""`, of a dict/list it is modelled
  with `Option`/`List.isEmpty`;
* the BeautifulSoup DOM is modelled at the level the code consumes it:
  an HTML document is the list of its `div` elements, each carrying its
  class-attribute list and its decoded text content (the result of
  `get_text(" ", strip=True)` plus entity unescaping); the subsequent
  whitespace collapsing and lowercasing that the Python code performs is
  embedded explicitly;
* regular-expression matching is embedded by hand: `re.escape(p)` makes the
  pattern a literal, so `\b p \b` search is word-boundary containment, and
  the DRM-class pattern `drm[_\-\s]?notice|anticheat_section` is expanded
  into its finitely many alternatives (ASCII `\s`);
* the ASCII fragment of `str.lower` / `\w` / `\s` is used; the marker
  phrases and class names the classifier handles are all ASCII.
-/

/-- ASCII whitespace characters matched by Python's regex class `\s`. -/
def isPySpace (c : Char) : Bool :=
  c = ' ' || c = '\t' || c = '\n' || c = '\r' || c = '\x0b' || c = '\x0c'

/-- Characters collapsed by the normalizer `re.sub(r'[\s\u00A0]+', ' ', _)`:
ASCII whitespace plus the no-break space. -/
def isSpaceLike (c : Char) : Bool :=
  isPySpace c || c = '\u00A0'

/-- ASCII lowering of one character (the fragment of `str.lower()` exercised
by the classifier's ASCII phrase lists). -/
def charLower (c : Char) : Char :=
  if 'A' ≤ c && c ≤ 'Z' then Char.ofNat (c.toNat + 32) else c

/-- Model of Python `str.lower()` (ASCII fragment). -/
def strLower (s : String) : String :=
  ⟨s.data.map charLower⟩

/-- Positions `0 .. n` inclusive, the candidate match positions in a string of
length `n`. -/
def uptoIncl : Nat → List Nat
  | 0 => [0]
  | n + 1 => uptoIncl n ++ [n + 1]

/-- Substring containment on character lists: model of Python's `p in s`. -/
def containsSubL (p s : List Char) : Bool :=
  (uptoIncl s.length).any fun i => (s.drop i).take p.length == p

/-- Substring containment on strings: model of Python's `p in s`. -/
def containsSub (p s : String) : Bool :=
  containsSubL p.data s.data

/-- A word character in the sense of the regex class `\w` (ASCII fragment). -/
def isWordChar (c : Char) : Bool :=
  c.isAlpha || c.isDigit || c = '_'

/-- Whether an optional character counts as a word character; the edges of the
string count as non-word. -/
def optWord : Option Char → Bool
  | some c => isWordChar c
  | none => false

/-- Whether the regex anchor `\b` matches at position `i` of `s`: the
word-ness of the characters on either side differs. -/
def boundaryAt (s : List Char) (i : Nat) : Bool :=
  optWord (if i = 0 then none else s[i - 1]?) != optWord s[i]?

/-- Model of `re.search(r"\b" + re.escape(p) + r"\b", s)`: the literal `p`
occurs somewhere in `s` with a `\b` boundary on both sides. -/
def wbOccurs (p s : List Char) : Bool :=
  (uptoIncl s.length).any fun i =>
    ((s.drop i).take p.length == p) && boundaryAt s i && boundaryAt s (i + p.length)

/-- Splits `cs` at separators (dropping empty pieces); `cur` is the reversed
current word. Model of splitting on a whitespace run. -/
def wordsAux (sep : Char → Bool) : List Char → List Char → List (List Char)
  | [], cur => if cur.isEmpty then [] else [cur.reverse]
  | c :: rest, cur =>
    if sep c then
      if cur.isEmpty then wordsAux sep rest [] else cur.reverse :: wordsAux sep rest []
    else wordsAux sep rest (c :: cur)

/-- Join with a separator string; model of Python `sep.join(parts)`. -/
def joinSep (sep : String) : List String → String
  | [] => ""
  | [x] => x
  | x :: rest => x ++ sep ++ joinSep sep rest

/-- Model of `re.sub(r'[\s\u00A0]+', ' ', s).strip().lower()`: whitespace runs
collapse to one space, outer whitespace is stripped, and the result is
lowercased. -/
def normText (s : String) : String :=
  strLower ⟨List.intercalate [' '] (wordsAux isSpaceLike s.data [])⟩

/-- Publisher/developer metadata of a record, as consumed by the protection
classifiers (`base['publishers']`, `base['developers']`). -/
structure BaseMeta where
  publishers : List String
  developers : List String
deriving DecidableEq

namespace SteamSync

/-- One `div` element of the store page, at the level BeautifulSoup hands it
to `extract_drm_text_blocks`: `classes` is the class-attribute token list
(`div.get("class")`, `[]` when the attribute is absent) and `text` is the
decoded text content (`div.get_text(" ", strip=True)` after `unescape`). -/
structure Div where
  classes : List String
  text : String
deriving DecidableEq

/-- A raw HTML document, modelled as the list of its `div` elements in
document order. -/
abbrev HtmlDoc := List Div

/-- Separator characters admitted between `drm` and `notice` by the class
pattern `drm[_\-\s]?notice` (ASCII `\s`). -/
def drmSeps : List Char := ['_', '-', ' ', '\t', '\n', '\r', '\x0b', '\x0c']

/-- Model of `re.compile(r'(?:drm[_\-\s]?notice|anticheat_section)',
re.IGNORECASE).search(" ".join(classes))` plus the preceding
`if not classes: continue` guard of `extract_drm_text_blocks`. -/
def classMatches (d : Div) : Bool :=
  !d.classes.isEmpty &&
    (let cs := (strLower (joinSep " " d.classes)).data
     containsSubL "anticheat_section".data cs ||
       containsSubL "drmnotice".data cs ||
       drmSeps.any fun c => containsSubL ("drm".data ++ c :: "notice".data) cs)

/-- Embedding of the helper `extract_drm_text_blocks` of `detect_protection`
(`steam_sync.py` lines 163-179): the normalized, lowercased text of every
`div` whose class attribute matches the DRM/anticheat pattern. -/
def extract_drm_text_blocks (html : HtmlDoc) : List String :=
  (html.filter classMatches).map fun d => normText d.text

/-- The phrase list `html_check_phrases` of `detect_protection`
(`steam_sync.py` lines 201-215). -/
def html_check_phrases : List String :=
  ["ea app",
   "requires ea account",
   "requires ubisoft account",
   "requires rockstar account",
   "requires activision",
   "requires epic account",
   "login with epic",
   "electronic arts", "ea games", "ea sports",
   "ubisoft", "uplay", "ubisoft connect",
   "rockstar games", "social club",
   "activision", "battle.net", "battlenet",
   "epic games", "epic online services", "denuvo"]

/-- The generic anti-cheat term list `anti` of the no-HTML fallback of
`detect_protection` (`steam_sync.py` line 234). -/
def anti : List String := ["easy anti-cheat", "eac", "battleye", "vac"]

/-- One step of the inner loop of `find_phrases_in_blocks`: record phrase `p`
(once) when the word-boundary pattern built from its lowercase form matches
the block.  `re.escape` makes the pattern literal, so the `re.error` branch
of the source is unreachable. -/
def phraseStep (block : String) (found : List String) (p : String) : List String :=
  if wbOccurs (strLower p).data block.data then
    if p ∈ found then found else found ++ [p]
  else found

/-- Embedding of the helper `find_phrases_in_blocks` of `detect_protection`
(`steam_sync.py` lines 181-194). -/
def find_phrases_in_blocks (blocks phrases : List String) : List String :=
  blocks.foldl (fun found block => phrases.foldl (phraseStep block) found) []

/-- Embedding of `detect_protection` (`steam_sync.py` lines 150-238).
`raw_html = none` models a `None` or empty-string (falsy) `raw_html`
argument; `some html` models a non-empty document with `div` list `html`.
Returns `some true` for detected protection, `none` for inconclusive. -/
def detect_protection (base : BaseMeta) (txt : String) (raw_html : Option HtmlDoc) :
    Option Bool :=
  let t := strLower txt
  match raw_html with
  | some html =>
    let blocks := extract_drm_text_blocks html
    if blocks.any (fun b => containsSub "denuvo" b) then some true
    else if (find_phrases_in_blocks blocks html_check_phrases).isEmpty then none
    else some true
  | none =>
    if containsSub "denuvo" t then some true
    else if anti.any (fun a => containsSub a t) then none
    else none

end SteamSync

namespace SteamTest

/-- The `launcher_keywords` list of `detect_protection_final`
(`steam_test.py` lines 150-158). -/
def launcher_keywords : List String :=
  ["electronic arts", "ea", "ea games", "ea sports",
   "ubisoft", "ubisoft entertainment", "uplay",
   "rockstar games", "rockstar north", "rockstar",
   "activision", "blizzard", "battle.net", "battlenet",
   "epic games",
   "epic games inc",
   "epic"]

/-- The `html_triggers` list of `detect_protection_final`
(`steam_test.py` lines 170-181). -/
def html_triggers : List String :=
  ["ea app", "origin", "requires ea account",
   "ubisoft connect", "requires ubisoft account",
   "rockstar games launcher", "social club",
   "battle.net", "battlenet", "requires activision account",
   "epic games account",
   "requires epic account",
   "epic online services",
   "eos",
   "login with epic"]

/-- The `anti_cheat` list of `detect_protection_final`
(`steam_test.py` lines 187-190). -/
def anti_cheat : List String :=
  ["easy anti-cheat", "eac", "battleye",
   "valve anti-cheat", "vac"]

/-- Embedding of `detect_protection_final` (`steam_test.py` lines 142-198).
All scanning is plain substring containment on the lowercased page text and
the lowercased publisher/developer entries, exactly as in the source. -/
def detect_protection_final (base : BaseMeta) (html_text : String) : Option Bool :=
  let text := strLower html_text
  if containsSub "denuvo" text || containsSub "denuvo anti-tamper" text then some true
  else
    let pubs := base.publishers.map strLower
    let devs := base.developers.map strLower
    if pubs.any (fun p => launcher_keywords.any fun l => containsSub l p) then some true
    else if devs.any (fun d => launcher_keywords.any fun l => containsSub l d) then some true
    else if html_triggers.any (fun tr => containsSub tr text) then some true
    else if anti_cheat.any (fun a => containsSub a text) then none
    else if containsSub "third-party eula" text || containsSub "3rd-party eula" text then none
    else none

end SteamTest

/-- Decimal digits of `n`, least significant first; `fuel` bounds the
recursion (any `fuel > n` is exact). -/
def revDigitsAux : Nat → Nat → List Char
  | 0, _ => []
  | fuel + 1, n =>
    if n < 10 then [Char.ofNat (48 + n)]
    else Char.ofNat (48 + n % 10) :: revDigitsAux fuel (n / 10)

/-- Groups of at most three, taken from the front. -/
def chunk3 : List Char → List (List Char)
  | [] => []
  | [a] => [[a]]
  | [a, b] => [[a, b]]
  | a :: b :: c :: rest => [a, b, c] :: chunk3 rest

/-- Decimal rendering of a natural number. -/
def natStr (n : Nat) : String :=
  ⟨(revDigitsAux (n + 1) n).reverse⟩

/-- Decimal rendering of an integer (Python `str(i)` / f-string `{i}`). -/
def intStr (i : Int) : String :=
  if i < 0 then "-" ++ natStr i.natAbs else natStr i.toNat

/-- Model of the display-price expression
`f"Rp {norm:,.0f}".replace(",", ".")`: the amount grouped in thousands with
`.` separators behind the literal `Rp `.  The amount is a non-negative
integer wherever the sources evaluate this expression. -/
def fmtRupiah (norm : Int) : String :=
  "Rp " ++ ⟨(List.intercalate ['.'] (chunk3 (revDigitsAux (norm.toNat + 1) norm.toNat))).reverse⟩

/-- The shared step of both deduplication loops (`if c not in seen:
seen.add(c); out.append(c)`): the `seen` set of the source always holds
exactly the members of the output list, so membership is tested on the
output list itself. -/
def appendIfNew {α : Type} [DecidableEq α] (acc : List α) (x : α) : List α :=
  if x ∈ acc then acc else acc ++ [x]

/-- The `price_overview` block of a detail payload; `initial` and `final` are
minor-unit amounts, `none` when the key is absent (the code reads them with
`.get(_, 0)`). -/
structure PriceOverview where
  initial : Option Int
  final : Option Int
deriving DecidableEq

/-- The `data` body of a detail payload, restricted to the keys the two
parsers consume.  `genres` is the list of the genre `description` strings
(a missing `description` is read as `""` by the code, hence plain strings);
`release_date` is the `date` key of the `release_date` block, `none` when
either is absent.  `price_overview = none` also models a falsy (empty)
price block, and `steam_appid = none` a missing key. -/
structure Info where
  name : Option String
  header_image : Option String
  genres : List String
  short_description : Option String
  developers : List String
  publishers : List String
  release_date : Option String
  price_overview : Option PriceOverview
  steam_appid : Option Int
deriving DecidableEq

/-- The per-appid entry of the detail payload
(`{"<appid>": {"success": ..., "data": ...}}`); `data = none` also models a
falsy (empty) data body. -/
structure Payload where
  success : Bool
  data : Option Info
deriving DecidableEq

namespace SteamSync

/-- The item record produced by `parse_store_api` (`steam_sync.py` lines
110-121), before `protection` and `last_update` are attached. -/
structure Record where
  appid : Int
  title : Option String
  header : Option String
  genre : Option String
  short_description : Option String
  developers : List String
  publishers : List String
  release_date : Option String
  price_display : String
  price_normalized : Int
deriving DecidableEq

/-- Embedding of `parse_store_api` (`steam_sync.py` lines 83-121).  The
argument `js` is the payload found under the key `str(appid)`: `none` models
a missing key or a `None`/empty response (`js or {}`), in which case
`d.get("success")` is falsy and the function returns `None`. -/
def parse_store_api (appid : Int) (js : Option Payload) : Option Record :=
  match js with
  | none => none
  | some d =>
    if !d.success then none
    else
      match d.data with
      | none => none
      | some info =>
        let genres := joinSep ", " info.genres
        let priceFields : String × Int :=
          match info.price_overview with
          | some price =>
            let init := price.initial.getD 0
            let fin := price.final.getD 0
            let chosen := if init > 0 then init else fin
            if chosen > 0 then (fmtRupiah (chosen / 100), chosen / 100)
            else ("Free", 0)
          | none => ("Free", 0)
        some
          { appid := appid
            title := info.name
            header := info.header_image
            genre := if genres = "" then none else some genres
            short_description := info.short_description
            developers := info.developers
            publishers := info.publishers
            release_date := info.release_date
            price_display := priceFields.1
            price_normalized := priceFields.2 }

/-- The loop of `build_header_candidates` (`steam_sync.py` lines 137-142):
append unseen screenshot URLs, stopping once the list holds 7 entries.  The
Python `seen` set always holds exactly the members of `out`, so membership
is tested on `out` itself. -/
def bhcLoop : List String → List String → List String
  | out, [] => out
  | out, url :: rest =>
    if (appendIfNew out url).length ≥ 7 then appendIfNew out url
    else bhcLoop (appendIfNew out url) rest

/-- Embedding of `build_header_candidates` (`steam_sync.py` lines 124-144).
A falsy (`None` or empty) `header_url` is modelled as `""`. -/
def build_header_candidates (header_url : String) (screenshots : List String) :
    List String :=
  bhcLoop (if header_url ≠ "" then [header_url] else []) screenshots

end SteamSync

namespace SteamTest

/-- The item record produced by `parse_store_api` (`steam_test.py` lines
99-111). -/
structure Record where
  appid : Int
  title : Option String
  header : Option String
  header_candidates : List String
  genre : Option String
  short_description : Option String
  developers : List String
  publishers : List String
  release_date : Option String
  price_display : String
  price_normalized : Int
deriving DecidableEq

/-- Embedding of `build_header_candidates` (`steam_test.py` lines 115-136):
the API header (when truthy) followed by four fixed CDN URLs, deduplicated
preserving first occurrences.  The Python `seen` set always holds exactly
the members of `cleaned`, so membership is tested on `cleaned` itself. -/
def build_header_candidates (appid : Int) (header_from_api : Option String) :
    List String :=
  let base := "https://cdn.cloudflare.steamstatic.com/steam/apps/" ++ intStr appid
  let candidates :=
    (match header_from_api with
     | some h => if h = "" then [] else [h]
     | none => []) ++
    [base ++ "/header.jpg",
     base ++ "/header_alt_assets_0.jpg",
     base ++ "/header_alt_assets_1.jpg",
     base ++ "/header_alt_assets_2.jpg"]
  candidates.foldl appendIfNew []

/-- Embedding of `parse_store_api` (`steam_test.py` lines 64-113).  As in
`SteamSync.parse_store_api`, `js = none` models a missing or falsy payload
entry.  `int(chosen / 100)` agrees with floor division on the non-negative
amounts this branch handles.  `info.get("steam_appid") or appid` falls back
to `appid` when the key is missing or the value is the falsy `0`. -/
def parse_store_api (appid : Int) (js : Option Payload) : Option Record :=
  match js with
  | none => none
  | some d =>
    if !d.success then none
    else
      match d.data with
      | none => none
      | some info =>
        let appid_num :=
          match info.steam_appid with
          | some s => if s = 0 then appid else s
          | none => appid
        let genres := joinSep ", " info.genres
        let priceFields : String × Int :=
          match info.price_overview with
          | some price =>
            let initial := price.initial.getD 0
            let fin := price.final.getD 0
            let chosen := if initial > 0 then initial else fin
            if chosen > 0 then (fmtRupiah (chosen / 100), chosen / 100)
            else ("Free", 0)
          | none => ("Free", 0)
        some
          { appid := appid_num
            title := info.name
            header := info.header_image
            header_candidates := build_header_candidates appid_num info.header_image
            genre := if genres = "" then none else some genres
            short_description := info.short_description
            developers := info.developers
            publishers := info.publishers
            release_date := info.release_date
            price_display := priceFields.1
            price_normalized := priceFields.2 }

end SteamTest

/-- A detail-payload body holding only a price block; used by concrete
test inputs below. -/
def infoWithPrice (po : Option PriceOverview) : Info :=
  { name := none, header_image := none, genres := [],
    short_description := none, developers := [], publishers := [],
    release_date := none, price_overview := po, steam_appid := none }

namespace SteamSync

/-- One entry of the appid mirror payload; only the `appid` key is consumed
(`m["appid"]`). -/
structure MirrorEntry where
  appid : Int
deriving DecidableEq

/-- The identifier sequence the orchestrator iterates
(`steam_sync.py` lines 374-375): `appids = [m["appid"] for m in mirror]`
followed by `appids.sort()`.  Python's stable ascending sort is modelled by
insertion sort, which produces the same ascending permutation. -/
def appidsOf (mirror : List MirrorEntry) : List Int :=
  List.insertionSort (· ≤ ·) (mirror.map MirrorEntry.appid)

/-- The escalation table `BACKOFF_STEPS = [600, 1800, 3600]`
(`steam_sync.py` line 49). -/
def BACKOFF_STEPS : List Nat := [600, 1800, 3600]

/-- The wait chosen on a 403: `BACKOFF_STEPS[min(backoff_stage,
len(BACKOFF_STEPS)-1)]` (`steam_sync.py` lines 392 and 406). -/
def backoffWait (stage : Nat) : Nat :=
  BACKOFF_STEPS.getD (min stage (BACKOFF_STEPS.length - 1)) 0

/-- A fetched item record after `protection` and `last_update` are attached
(`full` in the main loop). -/
structure FullRecord where
  base : Record
  protection : Option Bool
  last_update : String

/-- The persisted catalog: a mapping from identifier to item record (the
JSON document keys are `str(appid)`, and `str` is injective on integers, so
the map is keyed by the integer itself). -/
def Catalog : Type := Int → Option FullRecord

/-- The mutable state of one iteration of the main loop: the in-memory
cursor `idx`, the catalog `db`, the persisted cursor (contents of
`progress.json`) and the backoff stage. -/
structure CrawlState where
  idx : Nat
  db : Catalog
  progress : Nat
  stage : Nat

/-- Outcome of one bounded-retry fetch, as the main loop distinguishes it:
a 403 signal, or a value (for `fetch_json` the decoded payload with `none`
for a `None`/missing result, for `fetch_text` the page with `none` for an
empty result). -/
inductive FetchR (α : Type) where
  | rateLimited
  | ok (v : α)

/-- Embedding of one iteration of the `while idx < len(appids)` loop of
`main` (`steam_sync.py` lines 386-442), with the network results and the
analyzer-subprocess result supplied as inputs.  The HTML result carries both
the `div` list and the extracted plain page text
(`BeautifulSoup(html, "lxml").get_text(" ", strip=True)`).  Sleeps and the
periodic git push are external effects without influence on the state
modelled here; the function is total, so no iteration raises. -/
def crawlStep (appids : List Int) (st : CrawlState)
    (jsRes : FetchR (Option Payload)) (htmlRes : FetchR (Option (HtmlDoc × String)))
    (analyzerRes : Option (Option Bool)) (ts : String) : CrawlState :=
  match appids[st.idx]? with
  | none => st
  | some appid =>
    match jsRes with
    | .rateLimited => { st with stage := st.stage + 1 }
    | .ok js =>
      match parse_store_api appid js with
      | none => { st with idx := st.idx + 1, progress := st.idx + 1 }
      | some base =>
        match htmlRes with
        | .rateLimited => { st with stage := st.stage + 1 }
        | .ok htmlOpt =>
          let text := (htmlOpt.map Prod.snd).getD ""
          let raw_html := htmlOpt.map Prod.fst
          let prot :=
            match detect_protection ⟨base.publishers, base.developers⟩ text raw_html with
            | some b => some b
            | none =>
              match analyzerRes with
              | some decision => decision
              | none => none
          let full : FullRecord := ⟨base, prot, ts⟩
          { idx := st.idx + 1
            db := fun k => if k = appid then some full else st.db k
            progress := st.idx + 1
            stage := 0 }

end SteamSync

/-- Embedding of `load_json` (`steam_sync.py` lines 66-72).  The persisted
file is modelled by what the code observes of it: `none` for a missing file,
`some none` for a file whose contents `json.loads` rejects, and
`some (some v)` for a file that decodes to `v`. -/
def load_json {α : Type} (contents : Option (Option α)) (default : α) : α :=
  match contents with
  | none => default
  | some none => default
  | some (some v) => v

/-- The progress-cursor document `{"index": <int>}`. -/
structure Progress where
  index : Nat
deriving DecidableEq

/-- The cursor the crawl starts from: `prog = load_json(PROGRESS_FILE,
{"index": 0}); idx = prog["index"]` (`steam_sync.py` lines 378-380). -/
def initialIndex (progressFile : Option (Option Progress)) : Nat :=
  (load_json progressFile ⟨0⟩).index

/-- The catalog the crawl starts from: `db = load_json(OUTPUT, {})`
(`steam_sync.py` line 377). -/
def initialCatalog (outputFile : Option (Option SteamSync.Catalog)) : SteamSync.Catalog :=
  load_json outputFile (fun _ => none)

namespace SteamTest

/-- Embedding of `load_existing_data` (`steam_test.py` lines 201-214), with
the same file model as `load_json`: a missing file or undecodable contents
yield `{}`; otherwise every key is converted with `int(k)` (modelled by
`String.toInt?`) and entries whose key conversion fails are skipped. -/
def load_existing_data (contents : Option (Option (List (String × Record)))) :
    List (Int × Record) :=
  match contents with
  | none => []
  | some none => []
  | some (some raw) => raw.filterMap fun kv => (kv.1.toInt?).map fun k => (k, kv.2)

end SteamTest

section HelperLemmas

theorem appendIfNew_eq_append {α : Type} [DecidableEq α] (acc : List α) (x : α) :
    ∃ e, appendIfNew acc x = acc ++ e := by
  unfold appendIfNew
  by_cases h : x ∈ acc
  · exact ⟨[], by simp [h]⟩
  · exact ⟨[x], by simp [h]⟩

theorem appendIfNew_nodup {α : Type} [DecidableEq α] {acc : List α} (x : α)
    (h : acc.Nodup) : (appendIfNew acc x).Nodup := by
  unfold appendIfNew
  by_cases hm : x ∈ acc
  · simpa [hm] using h
  · simp [hm, List.nodup_append, h]

theorem appendIfNew_length {α : Type} [DecidableEq α] (acc : List α) (x : α) :
    (appendIfNew acc x).length ≤ acc.length + 1 := by
  unfold appendIfNew
  by_cases hm : x ∈ acc <;> simp [hm]

theorem foldl_appendIfNew_eq_append {α : Type} [DecidableEq α] :
    ∀ (l acc : List α), ∃ r, l.foldl appendIfNew acc = acc ++ r
  | [], acc => ⟨[], by simp⟩
  | x :: l, acc => by
    obtain ⟨e, he⟩ := appendIfNew_eq_append acc x
    obtain ⟨r, hr⟩ := foldl_appendIfNew_eq_append l (appendIfNew acc x)
    exact ⟨e ++ r, by rw [List.foldl_cons, hr, he, List.append_assoc]⟩

theorem foldl_appendIfNew_nodup {α : Type} [DecidableEq α] :
    ∀ (l : List α) {acc : List α}, acc.Nodup → (l.foldl appendIfNew acc).Nodup
  | [], _, h => h
  | x :: l, acc, h =>
    foldl_appendIfNew_nodup l (appendIfNew_nodup x h)

theorem foldl_appendIfNew_length {α : Type} [DecidableEq α] :
    ∀ (l acc : List α), (l.foldl appendIfNew acc).length ≤ acc.length + l.length
  | [], acc => by simp
  | x :: l, acc => by
    have h1 := foldl_appendIfNew_length l (appendIfNew acc x)
    have h2 := appendIfNew_length acc x
    rw [List.foldl_cons]
    simp only [List.length_cons]
    omega

theorem bhcLoop_eq_append :
    ∀ (ss out : List String), ∃ r, SteamSync.bhcLoop out ss = out ++ r
  | [], out => ⟨[], by simp [SteamSync.bhcLoop]⟩
  | url :: rest, out => by
    obtain ⟨e, he⟩ := appendIfNew_eq_append out url
    unfold SteamSync.bhcLoop
    by_cases h7 : (appendIfNew out url).length ≥ 7
    · exact ⟨e, by rw [if_pos h7, he]⟩
    · obtain ⟨r, hr⟩ := bhcLoop_eq_append rest (appendIfNew out url)
      exact ⟨e ++ r, by rw [if_neg h7, hr, he, List.append_assoc]⟩

theorem bhcLoop_nodup :
    ∀ (ss : List String) {out : List String}, out.Nodup → (SteamSync.bhcLoop out ss).Nodup
  | [], _, h => h
  | url :: rest, out, h => by
    have h2 := appendIfNew_nodup url h
    unfold SteamSync.bhcLoop
    by_cases h7 : (appendIfNew out url).length ≥ 7
    · rwa [if_pos h7]
    · rw [if_neg h7]
      exact bhcLoop_nodup rest h2

theorem bhcLoop_length :
    ∀ (ss out : List String), out.length ≤ 6 → (SteamSync.bhcLoop out ss).length ≤ 7
  | [], out, h => by simpa [SteamSync.bhcLoop] using by omega
  | url :: rest, out, h => by
    have h2 := appendIfNew_length out url
    unfold SteamSync.bhcLoop
    by_cases h7 : (appendIfNew out url).length ≥ 7
    · rw [if_pos h7]; omega
    · rw [if_neg h7]
      exact bhcLoop_length rest (appendIfNew out url) (by omega)

theorem phraseStep_eq_append (block : String) (acc : List String) (p : String) :
    ∃ e, SteamSync.phraseStep block acc p = acc ++ e := by
  unfold SteamSync.phraseStep
  by_cases hw : wbOccurs (strLower p).data block.data
  · by_cases hm : p ∈ acc
    · exact ⟨[], by simp [hw, hm]⟩
    · exact ⟨[p], by simp [hw, hm]⟩
  · exact ⟨[], by simp [hw]⟩

theorem foldl_phraseStep_eq_append (block : String) :
    ∀ (ps acc : List String), ∃ r, ps.foldl (SteamSync.phraseStep block) acc = acc ++ r
  | [], acc => ⟨[], by simp⟩
  | p :: ps, acc => by
    obtain ⟨e, he⟩ := phraseStep_eq_append block acc p
    obtain ⟨r, hr⟩ := foldl_phraseStep_eq_append block ps (SteamSync.phraseStep block acc p)
    exact ⟨e ++ r, by rw [List.foldl_cons, hr, he, List.append_assoc]⟩

theorem foldl_phraseStep_ne_nil (block : String) :
    ∀ (ps acc : List String) (p : String), p ∈ ps →
      wbOccurs (strLower p).data block.data = true →
      ps.foldl (SteamSync.phraseStep block) acc ≠ []
  | q :: ps, acc, p, hp, hw => by
    rw [List.foldl_cons]
    rcases List.mem_cons.mp hp with h | h
    · subst h
      obtain ⟨r, hr⟩ := foldl_phraseStep_eq_append block ps (SteamSync.phraseStep block acc p)
      rw [hr]
      have h2 : SteamSync.phraseStep block acc p ≠ [] := by
        unfold SteamSync.phraseStep
        rw [if_pos hw]
        by_cases hm : p ∈ acc
        · rw [if_pos hm]
          exact List.ne_nil_of_mem hm
        · rw [if_neg hm]
          simp
      intro hc
      exact h2 (List.append_eq_nil.mp hc).1
    · exact foldl_phraseStep_ne_nil block ps _ p h hw

theorem foldl_blocks_eq_append (phrases : List String) :
    ∀ (blocks acc : List String),
      ∃ r, blocks.foldl (fun found block => phrases.foldl (SteamSync.phraseStep block) found)
        acc = acc ++ r
  | [], acc => ⟨[], by simp⟩
  | b :: blocks, acc => by
    obtain ⟨e, he⟩ := foldl_phraseStep_eq_append b phrases acc
    obtain ⟨r, hr⟩ := foldl_blocks_eq_append phrases blocks
      (phrases.foldl (SteamSync.phraseStep b) acc)
    exact ⟨e ++ r, by rw [List.foldl_cons, hr, he, List.append_assoc]⟩

theorem find_phrases_in_blocks_ne_nil {blocks phrases : List String} {block p : String}
    (hb : block ∈ blocks) (hp : p ∈ phrases)
    (hw : wbOccurs (strLower p).data block.data = true) :
    SteamSync.find_phrases_in_blocks blocks phrases ≠ [] := by
  unfold SteamSync.find_phrases_in_blocks
  suffices h : ∀ (bs acc : List String), block ∈ bs →
      bs.foldl (fun found blk => phrases.foldl (SteamSync.phraseStep blk) found) acc ≠ [] from
    h blocks [] hb
  intro bs
  induction bs with
  | nil => intro acc h; cases h
  | cons b rest ih =>
    intro acc hmem
    rw [List.foldl_cons]
    rcases List.mem_cons.mp hmem with h | h
    · subst h
      obtain ⟨r, hr⟩ := foldl_blocks_eq_append phrases rest
        (phrases.foldl (SteamSync.phraseStep block) acc)
      rw [hr]
      intro hc
      exact foldl_phraseStep_ne_nil block phrases acc p hp hw (List.append_eq_nil.mp hc).1
    · exact ih _ h

end HelperLemmas

theorem backoffWait_of_two_le {s : Nat} (h : 2 ≤ s) : SteamSync.backoffWait s = 3600 := by
  unfold SteamSync.backoffWait
  have hl : SteamSync.BACKOFF_STEPS.length - 1 = 2 := rfl
  rw [hl, min_eq_right h]
  rfl

theorem backoffWait_le_succ (s : Nat) :
    SteamSync.backoffWait s ≤ SteamSync.backoffWait (s + 1) := by
  match s with
  | 0 => decide
  | 1 => decide
  | n + 2 =>
    rw [backoffWait_of_two_le (by omega), backoffWait_of_two_le (by omega)]

/-- C4: within one run, consecutive 403 signals never decrease the wait:
each 403 iteration of the main loop increments the stage by one, and
`backoffWait` is monotone in the stage; the wait is clamped at the table's
last entry 3600; the first wait is 600 seconds; and the success path of the
main loop resets the stage to 0, so the next wait after a completed item is
again the table's first value. -/
theorem backoff_monotone_clamped_reset :
    (∀ s k : Nat, SteamSync.backoffWait s ≤ SteamSync.backoffWait (s + k)) ∧
    (∀ s : Nat, SteamSync.backoffWait s ≤ 3600) ∧
    (∀ s : Nat, 2 ≤ s → SteamSync.backoffWait s = 3600) ∧
    SteamSync.backoffWait 0 = 600 ∧
    (∀ (appids : List Int) (st : SteamSync.CrawlState) (appid : Int)
        (htmlRes : SteamSync.FetchR (Option (SteamSync.HtmlDoc × String)))
        (analyzerRes : Option (Option Bool)) (ts : String),
      appids[st.idx]? = some appid →
      (SteamSync.crawlStep appids st .rateLimited htmlRes analyzerRes ts).stage =
        st.stage + 1) ∧
    (∀ (appids : List Int) (st : SteamSync.CrawlState) (appid : Int)
        (js : Option Payload) (base : SteamSync.Record)
        (htmlOpt : Option (SteamSync.HtmlDoc × String))
        (analyzerRes : Option (Option Bool)) (ts : String),
      appids[st.idx]? = some appid →
      SteamSync.parse_store_api appid js = some base →
      (SteamSync.crawlStep appids st (.ok js) (.ok htmlOpt) analyzerRes ts).stage = 0) := by
  refine ⟨?_, ?_, fun s h => backoffWait_of_two_le h, rfl, ?_, ?_⟩
  · intro s k
    induction k with
    | zero => exact Nat.le_refl _
    | succ k ih => exact Nat.le_trans ih (backoffWait_le_succ (s + k))
  · intro s
    match s with
    | 0 => decide
    | 1 => decide
    | n + 2 => rw [backoffWait_of_two_le (by omega)]
  · intro appids st appid htmlRes analyzerRes ts hidx
    simp [SteamSync.crawlStep, hidx]
  · intro appids st appid js base htmlOpt analyzerRes ts hidx hparse
    simp [SteamSync.crawlStep, hidx, hparse]

/-- Witness for `backoff_monotone_clamped_reset`: the clamp at stage 5 and
the stage reset after a successfully parsed item. -/
theorem backoff_monotone_clamped_reset_witness :
    SteamSync.backoffWait 5 = 3600 ∧
    (SteamSync.crawlStep [10] ⟨0, fun _ => none, 0, 1⟩
        .rateLimited (.ok none) none "t").stage = 2 ∧
    (SteamSync.crawlStep [10] ⟨0, fun _ => none, 0, 3⟩
        (.ok (some ⟨true, some (infoWithPrice none)⟩)) (.ok none) none "t").stage = 0 := by
  refine ⟨?_, ?_, ?_⟩
  · exact backoff_monotone_clamped_reset.2.2.1 5 (by omega)
  · exact backoff_monotone_clamped_reset.2.2.2.2.1 [10] ⟨0, fun _ => none, 0, 1⟩ 10
      (.ok none) none "t" rfl
  · exact backoff_monotone_clamped_reset.2.2.2.2.2 [10] ⟨0, fun _ => none, 0, 3⟩ 10
      (some ⟨true, some (infoWithPrice none)⟩)
      ⟨10, none, none, none, none, [], [], none, "Free", 0⟩ none none "t" rfl (by decide)

/-- C5 counterexample: the orchestrator's identifier sequence is *not*
deduplicated — a mirror payload listing identifier 1 twice yields the
iterated list `[1, 1]`, which contains 1 twice. -/
theorem appids_duplicates_survive :
    SteamSync.appidsOf [⟨1⟩, ⟨1⟩] = [1, 1] ∧
    ¬ (SteamSync.appidsOf [⟨1⟩, ⟨1⟩]).Nodup := by
  constructor
  · decide
  · decide

/-- C5 amended: the identifier sequence the crawl iterates is sorted
ascending, but it is not deduplicated — it is exactly a permutation of the
mirror payload's identifier multiset (`appids.sort()` with no duplicate
removal). -/
theorem appids_sorted_not_deduped (mirror : List SteamSync.MirrorEntry) :
    List.Sorted (· ≤ ·) (SteamSync.appidsOf mirror) ∧
    (SteamSync.appidsOf mirror).Perm (mirror.map SteamSync.MirrorEntry.appid) :=
  ⟨List.sorted_insertionSort _ _, List.perm_insertionSort _ _⟩

/-- C10: `load_json` returns the supplied default both for a missing file
and for contents the JSON decoder rejects (and the decoded value otherwise);
with `main`'s defaults, a corrupted or missing `progress.json` restarts the
crawl at index 0 and a corrupted or missing catalog starts empty; the test
tool's `load_existing_data` likewise yields the empty mapping in both
cases. -/
theorem load_json_defaults :
    (∀ (α : Type) (d : α), load_json none d = d) ∧
    (∀ (α : Type) (d : α), load_json (some none) d = d) ∧
    (∀ (α : Type) (d v : α), load_json (some (some v)) d = v) ∧
    initialIndex none = 0 ∧
    initialIndex (some none) = 0 ∧
    (∀ k, initialCatalog none k = none) ∧
    (∀ k, initialCatalog (some none) k = none) ∧
    SteamTest.load_existing_data none = [] ∧
    SteamTest.load_existing_data (some none) = [] :=
  ⟨fun _ _ => rfl, fun _ _ => rfl, fun _ _ _ => rfl, rfl, rfl,
   fun _ => rfl, fun _ => rfl, rfl, rfl⟩

/-- Projection of a parse result onto its normalized price pair. -/
def priceFieldsOf (o : Option SteamSync.Record) : Option (String × Int) :=
  o.map fun r => (r.price_display, r.price_normalized)

/-- C6: price normalization in `parse_store_api`.  With a price block
present, the positive un-discounted amount `initial` is preferred, else the
discounted `final`; the chosen minor-unit amount is floor-divided by 100 and
rendered with thousands grouping; a non-positive chosen amount or an absent
price block yields `"Free"` and 0.  The spec's concrete example holds in
both parsers: `{initial: 1000000, final: 800000}` gives `"Rp 10.000"` and
10000. -/
theorem price_normalization :
    (∀ (appid : Int) (info : Info) (price : PriceOverview),
        info.price_overview = some price → 0 < price.initial.getD 0 →
        priceFieldsOf (SteamSync.parse_store_api appid (some ⟨true, some info⟩)) =
          some (fmtRupiah (price.initial.getD 0 / 100), price.initial.getD 0 / 100)) ∧
    (∀ (appid : Int) (info : Info) (price : PriceOverview),
        info.price_overview = some price → price.initial.getD 0 ≤ 0 →
        0 < price.final.getD 0 →
        priceFieldsOf (SteamSync.parse_store_api appid (some ⟨true, some info⟩)) =
          some (fmtRupiah (price.final.getD 0 / 100), price.final.getD 0 / 100)) ∧
    (∀ (appid : Int) (info : Info) (price : PriceOverview),
        info.price_overview = some price → price.initial.getD 0 ≤ 0 →
        price.final.getD 0 ≤ 0 →
        priceFieldsOf (SteamSync.parse_store_api appid (some ⟨true, some info⟩)) =
          some ("Free", 0)) ∧
    (∀ (appid : Int) (info : Info),
        info.price_overview = none →
        priceFieldsOf (SteamSync.parse_store_api appid (some ⟨true, some info⟩)) =
          some ("Free", 0)) ∧
    priceFieldsOf (SteamSync.parse_store_api 10
        (some ⟨true, some (infoWithPrice (some ⟨some 1000000, some 800000⟩))⟩)) =
      some ("Rp 10.000", 10000) ∧
    (SteamTest.parse_store_api 10
        (some ⟨true, some (infoWithPrice (some ⟨some 1000000, some 800000⟩))⟩)).map
        (fun r => (r.price_display, r.price_normalized)) =
      some ("Rp 10.000", 10000) := by
  refine ⟨?_, ?_, ?_, ?_, by decide, by decide⟩
  · intro appid info price hpo hi
    simp [priceFieldsOf, SteamSync.parse_store_api, hpo, hi]
  · intro appid info price hpo hni hf
    have h1 : ¬ (price.initial.getD 0 > 0) := by omega
    simp [priceFieldsOf, SteamSync.parse_store_api, hpo, h1, hf]
  · intro appid info price hpo hni hnf
    have h1 : ¬ (price.initial.getD 0 > 0) := by omega
    have h2 : ¬ (price.final.getD 0 > 0) := by omega
    simp [priceFieldsOf, SteamSync.parse_store_api, hpo, h1, h2]
  · intro appid info hpo
    simp [priceFieldsOf, SteamSync.parse_store_api, hpo]

/-- Witness for `price_normalization` at concrete inputs discharging every
hypothesis shape: preferred initial, discount fallback, zero amounts, and
absent price block. -/
theorem price_normalization_witness :
    priceFieldsOf (SteamSync.parse_store_api 1
        (some ⟨true, some (infoWithPrice (some ⟨some 250000, some 100000⟩))⟩)) =
      some (fmtRupiah 2500, 2500) ∧
    priceFieldsOf (SteamSync.parse_store_api 2
        (some ⟨true, some (infoWithPrice (some ⟨some 0, some 80000⟩))⟩)) =
      some (fmtRupiah 800, 800) ∧
    priceFieldsOf (SteamSync.parse_store_api 3
        (some ⟨true, some (infoWithPrice (some ⟨some 0, none⟩))⟩)) =
      some ("Free", 0) ∧
    priceFieldsOf (SteamSync.parse_store_api 4
        (some ⟨true, some (infoWithPrice none)⟩)) = some ("Free", 0) :=
  ⟨price_normalization.1 1 _ ⟨some 250000, some 100000⟩ rfl (by decide),
   price_normalization.2.1 2 _ ⟨some 0, some 80000⟩ rfl (by decide) (by decide),
   price_normalization.2.2.1 3 _ ⟨some 0, none⟩ rfl (by decide) (by decide),
   price_normalization.2.2.2.1 4 _ rfl⟩

theorem foldl_appendIfNew_head {α : Type} [DecidableEq α] (x : α) (l : List α) :
    ((x :: l).foldl appendIfNew []).head? = some x := by
  rw [List.foldl_cons]
  have h1 : appendIfNew ([] : List α) x = [x] := by simp [appendIfNew]
  rw [h1]
  obtain ⟨r, hr⟩ := foldl_appendIfNew_eq_append l [x]
  rw [hr]
  rfl

/-- C7: both media candidate builders return duplicate-free lists of length
at most 7, with the primary header image first when it is present
(non-empty). -/
theorem media_candidates_invariant :
    (∀ (header_url : String) (screenshots : List String),
        (SteamSync.build_header_candidates header_url screenshots).Nodup ∧
        (SteamSync.build_header_candidates header_url screenshots).length ≤ 7) ∧
    (∀ (header_url : String) (screenshots : List String), header_url ≠ "" →
        (SteamSync.build_header_candidates header_url screenshots).head? =
          some header_url) ∧
    (∀ (appid : Int) (header : Option String),
        (SteamTest.build_header_candidates appid header).Nodup ∧
        (SteamTest.build_header_candidates appid header).length ≤ 7) ∧
    (∀ (appid : Int) (h : String), h ≠ "" →
        (SteamTest.build_header_candidates appid (some h)).head? = some h) := by
  refine ⟨?_, ?_, ?_, ?_⟩
  · intro h ss
    unfold SteamSync.build_header_candidates
    constructor
    · exact bhcLoop_nodup ss (by split <;> simp)
    · exact bhcLoop_length ss _ (by split <;> simp)
  · intro h ss hne
    unfold SteamSync.build_header_candidates
    rw [if_pos hne]
    obtain ⟨r, hr⟩ := bhcLoop_eq_append ss [h]
    rw [hr]
    rfl
  · intro appid header
    constructor
    · exact foldl_appendIfNew_nodup _ List.nodup_nil
    · refine le_trans (foldl_appendIfNew_length _ []) ?_
      cases header with
      | none => simp
      | some h => by_cases hh : h = "" <;> simp [hh]
  · intro appid h hne
    show ((((if h = "" then [] else [h]) ++
        ["https://cdn.cloudflare.steamstatic.com/steam/apps/" ++ intStr appid ++ "/header.jpg",
         "https://cdn.cloudflare.steamstatic.com/steam/apps/" ++ intStr appid ++
           "/header_alt_assets_0.jpg",
         "https://cdn.cloudflare.steamstatic.com/steam/apps/" ++ intStr appid ++
           "/header_alt_assets_1.jpg",
         "https://cdn.cloudflare.steamstatic.com/steam/apps/" ++ intStr appid ++
           "/header_alt_assets_2.jpg"]).foldl appendIfNew []).head? = some h)
    rw [if_neg hne, List.singleton_append]
    exact foldl_appendIfNew_head h _

/-- Witness for `media_candidates_invariant`: the header-first clauses at a
concrete header and screenshot list. -/
theorem media_candidates_invariant_witness :
    (SteamSync.build_header_candidates "H" ["a", "b"]).head? = some "H" ∧
    (SteamTest.build_header_candidates 7 (some "H")).head? = some "H" :=
  ⟨media_candidates_invariant.2.1 "H" ["a", "b"] (by decide),
   media_candidates_invariant.2.2.2 7 "H" (by decide)⟩

/-- C1 counterexample: the claim quantifies over every protection classifier
in the repository, but `detect_protection_final` returns Affirmative from a
launcher phrase found only in the publisher list, with an empty page (no
labeled block matches anything). -/
theorem publisher_marker_counterexample :
    SteamTest.detect_protection_final ⟨["Ubisoft"], []⟩ "" = some true := by
  decide

/-- C1 amended: for `detect_protection` (the crawl engine's classifier) the
claim holds — its verdict is independent of the publisher/developer
metadata, and when no labeled DRM/anticheat block matches any marker phrase
the verdict is Inconclusive (`none`), whatever the metadata contains;
`detect_protection_final` violates the original claim, as shown by the
counterexample above. -/
theorem metadata_never_raises_detect_protection :
    (∀ (b1 b2 : BaseMeta) (txt : String) (raw_html : Option SteamSync.HtmlDoc),
        SteamSync.detect_protection b1 txt raw_html =
          SteamSync.detect_protection b2 txt raw_html) ∧
    (∀ (base : BaseMeta) (txt : String) (html : SteamSync.HtmlDoc),
        (SteamSync.extract_drm_text_blocks html).any
            (fun b => containsSub "denuvo" b) = false →
        SteamSync.find_phrases_in_blocks (SteamSync.extract_drm_text_blocks html)
            SteamSync.html_check_phrases = [] →
        SteamSync.detect_protection base txt (some html) = none) := by
  constructor
  · intro b1 b2 txt raw_html
    rfl
  · intro base txt html hden hfind
    unfold SteamSync.detect_protection
    simp [hden, hfind]

/-- Witness for `metadata_never_raises_detect_protection`: publishers and
developers carry the marker `ubisoft`, the page has no matching labeled
block, and the verdict is Inconclusive. -/
theorem metadata_never_raises_witness :
    SteamSync.detect_protection ⟨["Ubisoft"], ["Ubisoft"]⟩ "published by ubisoft"
      (some [⟨["game_description"], "published by Ubisoft"⟩]) = none :=
  metadata_never_raises_detect_protection.2 ⟨["Ubisoft"], ["Ubisoft"]⟩
    "published by ubisoft" [⟨["game_description"], "published by Ubisoft"⟩]
    (by decide) (by decide)

/-- C2 counterexample: marker phrases are *not* checked only inside labeled
blocks: in the no-HTML fallback path of `detect_protection` (the very lines
the claim cites), the marker `denuvo` occurring in the plain page text
yields Affirmative although no labeled block exists at all. -/
theorem free_text_marker_counterexample :
    SteamSync.detect_protection ⟨[], []⟩ "denuvo" none = some true := by
  decide

/-- C2 amended: when raw HTML is provided, `detect_protection` consults only
the labeled DRM/anticheat blocks — its verdict does not depend on the plain
page text at all, and with no marker match inside the blocks it is
Inconclusive regardless of marker phrases anywhere in the page text.  In
the no-HTML fallback the marker `denuvo` *is* checked in free text (the
counterexample above), and `detect_protection_final` checks its whole
trigger list in free text. -/
theorem markers_only_in_blocks_html_path :
    (∀ (base : BaseMeta) (txt txt2 : String) (html : SteamSync.HtmlDoc),
        SteamSync.detect_protection base txt (some html) =
          SteamSync.detect_protection base txt2 (some html)) ∧
    (∀ (base : BaseMeta) (txt : String) (html : SteamSync.HtmlDoc),
        (SteamSync.extract_drm_text_blocks html).any
            (fun b => containsSub "denuvo" b) = false →
        SteamSync.find_phrases_in_blocks (SteamSync.extract_drm_text_blocks html)
            SteamSync.html_check_phrases = [] →
        SteamSync.detect_protection base txt (some html) = none) := by
  constructor
  · intro base txt txt2 html
    rfl
  · intro base txt html hden hfind
    unfold SteamSync.detect_protection
    simp [hden, hfind]

/-- Witness for `markers_only_in_blocks_html_path`: the plain text and an
unlabeled `div` are full of marker phrases, yet with no matching labeled
block the verdict stays Inconclusive. -/
theorem markers_only_in_blocks_witness :
    SteamSync.detect_protection ⟨[], []⟩ "marketing mentions denuvo and uplay"
      (some [⟨["game_description"], "marketing mentions denuvo and uplay"⟩]) = none :=
  markers_only_in_blocks_html_path.2 ⟨[], []⟩ "marketing mentions denuvo and uplay"
    [⟨["game_description"], "marketing mentions denuvo and uplay"⟩]
    (by decide) (by decide)

/-- C3: an HTML input containing a labeled DRM/anticheat block (a `div`
whose class attribute matches the `drm_notice`/`anticheat_section` pattern)
whose normalized text contains a marker phrase of the classifier's list as
a word-boundary, case-insensitive match makes `detect_protection` return
Affirmative. -/
theorem labeled_block_marker_affirmative :
    ∀ (base : BaseMeta) (txt : String) (html : SteamSync.HtmlDoc)
      (d : SteamSync.Div) (p : String),
      d ∈ html → SteamSync.classMatches d = true →
      p ∈ SteamSync.html_check_phrases →
      wbOccurs (strLower p).data (normText d.text).data = true →
      SteamSync.detect_protection base txt (some html) = some true := by
  intro base txt html d p hd hc hp hw
  have hb : normText d.text ∈ SteamSync.extract_drm_text_blocks html := by
    unfold SteamSync.extract_drm_text_blocks
    exact List.mem_map_of_mem _ (List.mem_filter.mpr ⟨hd, hc⟩)
  unfold SteamSync.detect_protection
  cases hden : (SteamSync.extract_drm_text_blocks html).any
      (fun b => containsSub "denuvo" b) with
  | true => simp [hden]
  | false =>
    have hne := find_phrases_in_blocks_ne_nil hb hp hw
    have hempty : (SteamSync.find_phrases_in_blocks
        (SteamSync.extract_drm_text_blocks html)
        SteamSync.html_check_phrases).isEmpty = false := by
      cases hfind : SteamSync.find_phrases_in_blocks
          (SteamSync.extract_drm_text_blocks html) SteamSync.html_check_phrases with
      | nil => exact absurd hfind hne
      | cons a l => rfl
    simp [hden, hempty]

/-- Witness for `labeled_block_marker_affirmative`: a `DRM_notice` block
saying `Requires Ubisoft Connect` (matched case-insensitively at word
boundaries) yields Affirmative. -/
theorem labeled_block_marker_witness :
    SteamSync.detect_protection ⟨[], []⟩ ""
      (some [⟨["DRM_notice"], "Requires Ubisoft Connect"⟩]) = some true :=
  labeled_block_marker_affirmative ⟨[], []⟩ ""
    [⟨["DRM_notice"], "Requires Ubisoft Connect"⟩]
    ⟨["DRM_notice"], "Requires Ubisoft Connect"⟩ "ubisoft connect"
    (by decide) (by decide) (by decide) (by decide)

/-- C8: generic anti-cheat service names never upgrade the verdict to
Affirmative.  For `detect_protection`: with no marker match inside labeled
blocks (and, in the no-HTML fallback, no `denuvo` marker in the text — the
only tier-1 evidence that path consults), the verdict is Inconclusive no
matter which anti-cheat names the page text contains.  For
`detect_protection_final`: with no denuvo marker, no launcher keyword in
the metadata and no HTML trigger, every remaining path — including the
anti-cheat branch — returns Inconclusive. -/
theorem anticheat_never_upgrades :
    (∀ (base : BaseMeta) (txt : String) (raw_html : Option SteamSync.HtmlDoc),
        (∀ html, raw_html = some html →
          (SteamSync.extract_drm_text_blocks html).any
              (fun b => containsSub "denuvo" b) = false ∧
          SteamSync.find_phrases_in_blocks (SteamSync.extract_drm_text_blocks html)
              SteamSync.html_check_phrases = []) →
        (raw_html = none → containsSub "denuvo" (strLower txt) = false) →
        SteamSync.detect_protection base txt raw_html = none) ∧
    (∀ (base : BaseMeta) (text : String),
        (containsSub "denuvo" (strLower text) ||
          containsSub "denuvo anti-tamper" (strLower text)) = false →
        (base.publishers.map strLower).any
            (fun p => SteamTest.launcher_keywords.any fun l => containsSub l p) = false →
        (base.developers.map strLower).any
            (fun d => SteamTest.launcher_keywords.any fun l => containsSub l d) = false →
        SteamTest.html_triggers.any
            (fun tr => containsSub tr (strLower text)) = false →
        SteamTest.detect_protection_final base text = none) := by
  constructor
  · intro base txt raw_html hblocks hfree
    cases raw_html with
    | none =>
      have hf := hfree rfl
      unfold SteamSync.detect_protection
      simp [hf]
    | some html =>
      obtain ⟨hden, hfind⟩ := hblocks html rfl
      unfold SteamSync.detect_protection
      simp [hden, hfind]
  · intro base text h1 h2 h3 h4
    unfold SteamTest.detect_protection_final
    simp [h1, h2, h3, h4]

/-- Witness for `anticheat_never_upgrades`: free text containing the
anti-cheat name `battleye`, no labeled blocks — both classifiers stay
Inconclusive. -/
theorem anticheat_never_upgrades_witness :
    SteamSync.detect_protection ⟨[], []⟩ "this game uses battleye" none = none ∧
    SteamTest.detect_protection_final ⟨[], []⟩ "this game uses battleye" = none :=
  ⟨anticheat_never_upgrades.1 ⟨[], []⟩ "this game uses battleye" none
      (fun _ h => nomatch h) (fun _ => by decide),
   anticheat_never_upgrades.2 ⟨[], []⟩ "this game uses battleye"
      (by decide) (by decide) (by decide) (by decide)⟩

/-- C9: for a detail payload lacking a success flag or a data body,
`parse_store_api` returns `none` and the main-loop iteration advances the
in-memory cursor and the persisted cursor by exactly one, leaves the
catalog mapping untouched, and leaves the backoff stage unchanged; the
step is a total function, so no error is raised. -/
theorem nodata_advances_cursor :
    ∀ (appids : List Int) (st : SteamSync.CrawlState) (js : Option Payload)
      (htmlRes : SteamSync.FetchR (Option (SteamSync.HtmlDoc × String)))
      (analyzerRes : Option (Option Bool)) (ts : String) (appid : Int),
      appids[st.idx]? = some appid →
      (js = none ∨ ∃ d, js = some d ∧ (d.success = false ∨ d.data = none)) →
      SteamSync.crawlStep appids st (.ok js) htmlRes analyzerRes ts =
        { st with idx := st.idx + 1, progress := st.idx + 1 } := by
  intro appids st js htmlRes analyzerRes ts appid hidx hjs
  have hparse : SteamSync.parse_store_api appid js = none := by
    rcases hjs with h | ⟨d, hd, h⟩
    · rw [h]; rfl
    · subst hd
      obtain ⟨succ, data⟩ := d
      rcases h with h | h
      · simp only at h
        subst h
        rfl
      · simp only at h
        subst h
        cases succ <;> rfl
  simp [SteamSync.crawlStep, hidx, hparse]

/-- Witness for `nodata_advances_cursor`: a `success: false` payload for
appid 10 advances both cursors from 0 to 1, writes no record for 10, and
keeps the backoff stage. -/
theorem nodata_advances_cursor_witness :
    (SteamSync.crawlStep [10] ⟨0, fun _ => none, 0, 5⟩
        (.ok (some ⟨false, none⟩)) (.ok none) none "t").idx = 1 ∧
    (SteamSync.crawlStep [10] ⟨0, fun _ => none, 0, 5⟩
        (.ok (some ⟨false, none⟩)) (.ok none) none "t").progress = 1 ∧
    (SteamSync.crawlStep [10] ⟨0, fun _ => none, 0, 5⟩
        (.ok (some ⟨false, none⟩)) (.ok none) none "t").db 10 = none ∧
    (SteamSync.crawlStep [10] ⟨0, fun _ => none, 0, 5⟩
        (.ok (some ⟨false, none⟩)) (.ok none) none "t").stage = 5 := by
  have h := nodata_advances_cursor [10] ⟨0, fun _ => none, 0, 5⟩ (some ⟨false, none⟩)
    (.ok none) none "t" 10 rfl (Or.inr ⟨⟨false, none⟩, rfl, Or.inl rfl⟩)
  rw [h]
  exact ⟨rfl, rfl, rfl, rfl⟩
